import Mathlib

/-!
# Verification of the Cerdas Finansial ledger engine and frontend helpers

Shallow embedding of:
* `budgetTone` from `frontend/src/pages/DashboardPage.jsx`,
* `formatRp` from `frontend/src/lib/format.js`,
* `filenameFromDisposition` from the frontend blob-download helper,
* the ledger consistency engine (BalanceProjector / EntityStore write path,
  BudgetAggregator), whose backend source is not part of this tree and is
  therefore modelled from the specification.

Monetary amounts are modelled as arbitrary-precision signed integers
(`Int`, the exact rupiah amounts every documented scenario uses); ids as
naturals; the budget percent value is a rational (`ℚ`).
-/

/-- Tone record returned by `budgetTone` in `DashboardPage.jsx`:
a display label and a CSS class string. -/
structure Tone where
  label : String
  cls : String
deriving DecidableEq, Repr

/-- Embedding of `budgetTone(percent)` from `DashboardPage.jsx`:
`percent > 90` gives "Hampir habis" (near limit), otherwise `percent >= 70`
gives "Hati-hati" (caution), otherwise "Aman" (safe). -/
def budgetTone (percent : ℚ) : Tone :=
  if percent > 90 then ⟨"Hampir habis", "bg-rose-100 text-rose-700 border-rose-200"⟩
  else if percent ≥ 70 then ⟨"Hati-hati", "bg-amber-100 text-amber-700 border-amber-200"⟩
  else ⟨"Aman", "bg-emerald-100 text-emerald-700 border-emerald-200"⟩

/-- The JavaScript values `formatRp` is quantified over in the spec claim:
numbers (modelled as integers, the amounts the app passes), `NaN`,
`undefined`, `null`, `false` and the empty string. -/
inductive JsVal where
  | num (n : Int)
  | nanV
  | undef
  | nullV
  | boolFalse
  | emptyStr
deriving DecidableEq, Repr

/-- JavaScript truthiness on the modelled values: `0`, `NaN`, `undefined`,
`null`, `false` and `""` are falsy. -/
def falsy : JsVal → Bool
  | .num n => n == 0
  | _ => true

/-- JavaScript `a || b`: `b` when `a` is falsy, else `a`. -/
def jsOr (v dflt : JsVal) : JsVal := if falsy v then dflt else v

/-- JavaScript `Number(·)` on the modelled values; `none` stands for `NaN`. -/
def jsNumberOf : JsVal → Option Int
  | .num n => some n
  | .nanV => none
  | .undef => none
  | .nullV => some 0
  | .boolFalse => some 0
  | .emptyStr => some 0

/-- Insert the id-ID thousands separator `.` into a digit list given least
significant digit first; `k` counts digits already emitted. -/
def sepRev : List Char → Nat → List Char
  | [], _ => []
  | c :: cs, k =>
    if k % 3 = 0 ∧ k ≠ 0 then '.' :: c :: sepRev cs (k + 1)
    else c :: sepRev cs (k + 1)

/-- Decimal digits of `n` grouped in threes with `.` separators
(id-ID locale grouping). -/
def groupDigits (n : Nat) : String :=
  String.mk ((sepRev (Nat.repr n).toList.reverse 0).reverse)

/-- Embedding of `Intl.NumberFormat("id-ID", { style: "currency",
currency: "IDR", maximumFractionDigits: 0 }).format`: "Rp" followed by a
non-breaking space and the grouped digits, a leading "-" for negatives,
and "Rp NaN" for `NaN` (`none`). -/
def formatIDR : Option Int → String
  | none => "Rp NaN"
  | some n => (if n < 0 then "-" else "") ++ "Rp " ++ groupDigits n.natAbs

/-- Embedding of `formatRp(amount)` from `format.js`:
`Number(amount || 0)` formatted in the id-ID IDR currency style. -/
def formatRp (v : JsVal) : String := formatIDR (jsNumberOf (jsOr v (.num 0)))

/-- Case-insensitive character comparison, as the `i` regex flag gives. -/
def ciEq (a b : Char) : Bool := a.toLower == b.toLower

/-- Strip a case-insensitive literal key from the front of a list, returning
the remainder on success. -/
def stripCI : List Char → List Char → Option (List Char)
  | [], rest => some rest
  | _ :: _, [] => none
  | p :: ps, c :: cs => if ciEq p c then stripCI ps cs else none

/-- The literal part of the regex `/filename\*=UTF-8''([^;]+)/i`. -/
def fnStarKey : List Char := "filename*=UTF-8''".toList

/-- The literal part of the regex `/filename="?([^;"]+)"?/i`. -/
def fnKey : List Char := "filename=".toList

/-- Left-to-right search for `/filename\*=UTF-8''([^;]+)/i`, returning the
first capture group: at the leftmost position where the literal key matches
case-insensitively and is followed by at least one non-`;` character, the
maximal run of non-`;` characters. -/
def scanFnStar : List Char → Option (List Char)
  | [] => none
  | c :: cs =>
    match stripCI fnStarKey (c :: cs) with
    | some rest =>
      let cap := rest.takeWhile (fun ch => ch != ';')
      if cap.isEmpty then scanFnStar cs else some cap
    | none => scanFnStar cs

/-- Left-to-right search for `/filename="?([^;"]+)"?/i`, returning the first
capture group: after the literal `filename=` an optional opening quote is
consumed, then the maximal nonempty run of characters that are neither `;`
nor `"`; if that run is empty the regex fails at this position (the greedy
`"?` cannot backtrack into a successful match) and the search continues. -/
def scanFn : List Char → Option (List Char)
  | [] => none
  | c :: cs =>
    match stripCI fnKey (c :: cs) with
    | some rest =>
      let rest2 := match rest with
        | '"' :: tl => tl
        | _ => rest
      let cap := rest2.takeWhile (fun ch => ch != ';' && ch != '"')
      if cap.isEmpty then scanFn cs else some cap
    | none => scanFn cs

/-- Value of a hexadecimal digit. -/
def hexVal (c : Char) : Option Nat :=
  if '0' ≤ c ∧ c ≤ '9' then some (c.toNat - '0'.toNat)
  else if 'a' ≤ c ∧ c ≤ 'f' then some (c.toNat - 'a'.toNat + 10)
  else if 'A' ≤ c ∧ c ≤ 'F' then some (c.toNat - 'A'.toNat + 10)
  else none

/-- One unit of a percent-encoded string: a literal character or a `%XX`
byte. -/
inductive UriToken where
  | raw (c : Char)
  | byte (b : Nat)
deriving DecidableEq, Repr

/-- Lex a percent-encoded string into tokens; `none` when a `%` is not
followed by two hexadecimal digits (JavaScript `decodeURIComponent` throws
`URIError` there). -/
def toTokens : List Char → Option (List UriToken)
  | [] => some []
  | '%' :: h1 :: h2 :: rest =>
    match hexVal h1, hexVal h2 with
    | some a, some b => (toTokens rest).map (fun ts => .byte (16 * a + b) :: ts)
    | _, _ => none
  | '%' :: _ => none
  | c :: rest => (toTokens rest).map (fun ts => .raw c :: ts)

/-- Is `b` a UTF-8 continuation byte (`0x80`–`0xBF`)? -/
def isCont (b : Nat) : Bool := 128 ≤ b && b < 192

/-- Interpret the `%XX` bytes of a token stream as UTF-8; `none` on any
malformed, overlong, surrogate or out-of-range sequence (the cases where
JavaScript `decodeURIComponent` throws `URIError`). -/
def fromTokens : List UriToken → Option (List Char)
  | [] => some []
  | .raw c :: rest => (fromTokens rest).map (fun cs => c :: cs)
  | .byte b :: rest =>
    if b < 128 then (fromTokens rest).map (fun cs => Char.ofNat b :: cs)
    else if b < 194 then none
    else if b < 224 then
      match rest with
      | .byte b2 :: rest2 =>
        if isCont b2 then
          (fromTokens rest2).map (fun cs => Char.ofNat ((b - 192) * 64 + (b2 - 128)) :: cs)
        else none
      | _ => none
    else if b < 240 then
      match rest with
      | .byte b2 :: .byte b3 :: rest2 =>
        if isCont b2 && isCont b3 then
          let cp := (b - 224) * 4096 + (b2 - 128) * 64 + (b3 - 128)
          if 2048 ≤ cp ∧ ¬(55296 ≤ cp ∧ cp ≤ 57343) then
            (fromTokens rest2).map (fun cs => Char.ofNat cp :: cs)
          else none
        else none
      | _ => none
    else if b < 245 then
      match rest with
      | .byte b2 :: .byte b3 :: .byte b4 :: rest2 =>
        if isCont b2 && isCont b3 && isCont b4 then
          let cp := (b - 240) * 262144 + (b2 - 128) * 4096 + (b3 - 128) * 64 + (b4 - 128)
          if 65536 ≤ cp ∧ cp ≤ 1114111 then
            (fromTokens rest2).map (fun cs => Char.ofNat cp :: cs)
          else none
        else none
      | _ => none
    else none

/-- Embedding of JavaScript `decodeURIComponent`; `none` models a thrown
`URIError`. -/
def decodeURIComponent (s : List Char) : Option (List Char) :=
  (toTokens s).bind fromTokens

/-- Embedding of `filenameFromDisposition(disposition, fallback)` from the
frontend download helper: `none` models `null`/`undefined`; the whole body
is wrapped in `try/catch` returning `fallback`, so a decoding failure of the
`filename*` capture yields `fallback`. -/
def filenameFromDisposition (disposition : Option String) (fallback : String) : String :=
  match disposition with
  | none => fallback
  | some d =>
    if d = "" then fallback
    else
      match scanFnStar d.toList with
      | some cap =>
        match decodeURIComponent cap with
        | some dec => String.mk dec
        | none => fallback
      | none =>
        match scanFn d.toList with
        | some cap => String.mk cap
        | none => fallback

/-- Transaction kind: income or expense. Modelled from the spec:
`type ∈ {income, expense}` (backend source absent from this tree). -/
inductive TxnKind where
  | income
  | expense
deriving DecidableEq, BEq, Repr

/-- Modelled from the spec: PaymentMethod entity (`id`, `user_id`, `name`,
`balance`); `base` is its last explicitly-set absolute balance, the anchor
`reconcile` replays against. The backend source is absent from this tree. -/
structure PaymentMethod where
  id : Nat
  user_id : Nat
  name : String
  base : Int
  balance : Int
deriving DecidableEq, Repr

/-- Modelled from the spec: Transaction entity; `amount` is positive, sign
implied by `kind`; the date is a calendar date `(year, month, day)`. -/
structure Txn where
  id : Nat
  user_id : Nat
  kind : TxnKind
  year : Nat
  month : Nat
  day : Nat
  category_id : Nat
  subcategory_id : Nat
  payment_method_id : Nat
  amount : Int
  description : String
deriving DecidableEq, Repr

/-- Modelled from the spec: Transfer entity between two payment methods. -/
structure Transfer where
  id : Nat
  user_id : Nat
  year : Nat
  month : Nat
  day : Nat
  from_payment_method_id : Nat
  to_payment_method_id : Nat
  amount : Int
  description : String
deriving DecidableEq, Repr

/-- Modelled from the spec: Subcategory entity. -/
structure Subcategory where
  id : Nat
  user_id : Nat
  kind : TxnKind
  category_id : Nat
  name : String
deriving DecidableEq, Repr

/-- Modelled from the spec: Budget row keyed by
`(user_id, year, month, subcategory_id)`. -/
structure Budget where
  user_id : Nat
  year : Nat
  month : Nat
  subcategory_id : Nat
  amount : Int
deriving DecidableEq, Repr

/-- Modelled from the spec: the EntityStore, keyed durable storage for the
entity kinds the claims touch. -/
structure EntityStore where
  methods : List PaymentMethod
  txns : List Txn
  transfers : List Transfer
  subcats : List Subcategory
  budgets : List Budget
deriving DecidableEq, Repr

/-- Modelled from the spec: the error taxonomy restricted to the kinds the
claims exercise. -/
inductive Err where
  | validation
  | notFound
deriving DecidableEq, Repr

/-- Signed effect of a transaction on its payment method:
income `+amount`, expense `-amount`. -/
def txnDelta (t : Txn) : Int :=
  match t.kind with
  | .income => t.amount
  | .expense => -t.amount

/-- Sum of `f` over a list. -/
def sumBy (f : α → Int) : List α → Int
  | [] => 0
  | x :: xs => f x + sumBy f xs

/-- Contribution of one transaction to the balance of method `i` of user
`u`: its signed amount when it references that method, else `0`. -/
def txnContrib (u i : Nat) (t : Txn) : Int :=
  if u = t.user_id ∧ i = t.payment_method_id then txnDelta t else 0

/-- Contribution of one transfer to the balance of method `i` of user `u`:
`+amount` on the `to` side, `-amount` on the `from` side. -/
def trContrib (u i : Nat) (tr : Transfer) : Int :=
  (if u = tr.user_id ∧ i = tr.to_payment_method_id then tr.amount else 0)
    - (if u = tr.user_id ∧ i = tr.from_payment_method_id then tr.amount else 0)

/-- Signed amount of every transaction referencing method `i` of user `u`. -/
def txnSum (u i : Nat) (ts : List Txn) : Int := sumBy (txnContrib u i) ts

/-- Signed amount of every transfer referencing method `i` of user `u`. -/
def trSum (u i : Nat) (trs : List Transfer) : Int := sumBy (trContrib u i) trs

/-- Modelled from the spec: a BalanceProjector delta - add `d` to the
balance of the payment method with id `i` of user `u`. -/
def applyDelta (u i : Nat) (d : Int) (ms : List PaymentMethod) : List PaymentMethod :=
  ms.map (fun m =>
    if m.user_id = u ∧ m.id = i then { m with balance := m.balance + d } else m)

/-- Does a payment method with id `i` exist and belong to user `u`? -/
def methodOwned (u i : Nat) (ms : List PaymentMethod) : Bool :=
  ms.any (fun m => m.id == i && m.user_id == u)

/-- Remove the first element satisfying `p` (the keyed store holds one
record per id). -/
def removeFirst (p : α → Bool) : List α → List α
  | [] => []
  | x :: xs => if p x then xs else x :: removeFirst p xs

/-- Key predicate for a transaction id scoped to its owner. -/
def txnKeyMatch (uid i : Nat) (t : Txn) : Bool := t.id == i && t.user_id == uid

/-- Key predicate for a transfer id scoped to its owner. -/
def trKeyMatch (uid i : Nat) (tr : Transfer) : Bool := tr.id == i && tr.user_id == uid

/-- Modelled from the spec: `applyCreate` of a transaction - apply its
delta to its payment method and store the record. -/
def consTxn (t : Txn) (s : EntityStore) : EntityStore :=
  { s with
    methods := applyDelta t.user_id t.payment_method_id (txnDelta t) s.methods
    txns := t :: s.txns }

/-- Modelled from the spec: `applyDelete` of a stored transaction `old` -
apply the inverse delta and remove the record. -/
def dropTxn (uid i : Nat) (old : Txn) (s : EntityStore) : EntityStore :=
  { s with
    methods := applyDelta uid old.payment_method_id (-(txnDelta old)) s.methods
    txns := removeFirst (txnKeyMatch uid i) s.txns }

/-- Modelled from the spec: `applyCreate` of a transfer - subtract from the
`from` method, add to the `to` method, in one atomic step. -/
def consTr (tr : Transfer) (s : EntityStore) : EntityStore :=
  { s with
    methods := applyDelta tr.user_id tr.to_payment_method_id tr.amount
      (applyDelta tr.user_id tr.from_payment_method_id (-tr.amount) s.methods)
    transfers := tr :: s.transfers }

/-- Modelled from the spec: `applyDelete` of a stored transfer `old` -
apply the two inverse deltas and remove the record. -/
def dropTr (uid i : Nat) (old : Transfer) (s : EntityStore) : EntityStore :=
  { s with
    methods := applyDelta uid old.from_payment_method_id old.amount
      (applyDelta uid old.to_payment_method_id (-old.amount) s.methods)
    transfers := removeFirst (trKeyMatch uid i) s.transfers }

/-- Modelled from the spec: `createTransaction` - reject nonpositive
amounts and payment methods that do not exist or belong to another user
with `ValidationError` before any mutation, else apply the create. -/
def createTransaction (uid : Nat) (t : Txn) (s : EntityStore) : Except Err EntityStore :=
  if t.amount ≤ 0 then .error .validation
  else if methodOwned uid t.payment_method_id s.methods then
    .ok (consTxn { t with user_id := uid } s)
  else .error .validation

/-- Modelled from the spec: `updateTransaction` - load the caller's old
record (`NotFoundError` when the id is absent or owned by another user),
validate the new fields, then reverse the old event and apply the new. -/
def updateTransaction (uid i : Nat) (t : Txn) (s : EntityStore) : Except Err EntityStore :=
  match s.txns.find? (txnKeyMatch uid i) with
  | none => .error .notFound
  | some old =>
    if t.amount ≤ 0 then .error .validation
    else if methodOwned uid t.payment_method_id s.methods then
      .ok (consTxn { t with id := i, user_id := uid } (dropTxn uid i old s))
    else .error .validation

/-- Modelled from the spec: `deleteTransaction` - the inverse of the
create of the stored record; no validation beyond existence. -/
def deleteTransaction (uid i : Nat) (s : EntityStore) : Except Err EntityStore :=
  match s.txns.find? (txnKeyMatch uid i) with
  | none => .error .notFound
  | some old => .ok (dropTxn uid i old s)

/-- Modelled from the spec: `createTransfer` - reject nonpositive amounts,
`from == to`, and unowned methods with `ValidationError` before any
mutation, else move the amount between the two methods atomically. -/
def createTransfer (uid : Nat) (tr : Transfer) (s : EntityStore) : Except Err EntityStore :=
  if tr.amount ≤ 0 then .error .validation
  else if tr.from_payment_method_id == tr.to_payment_method_id then .error .validation
  else if methodOwned uid tr.from_payment_method_id s.methods
      && methodOwned uid tr.to_payment_method_id s.methods then
    .ok (consTr { tr with user_id := uid } s)
  else .error .validation

/-- Modelled from the spec: `updateTransfer` - reverse the old transfer on
its old methods, then apply the new one on its new methods. -/
def updateTransfer (uid i : Nat) (tr : Transfer) (s : EntityStore) : Except Err EntityStore :=
  match s.transfers.find? (trKeyMatch uid i) with
  | none => .error .notFound
  | some old =>
    if tr.amount ≤ 0 then .error .validation
    else if tr.from_payment_method_id == tr.to_payment_method_id then .error .validation
    else if methodOwned uid tr.from_payment_method_id s.methods
        && methodOwned uid tr.to_payment_method_id s.methods then
      .ok (consTr { tr with id := i, user_id := uid } (dropTr uid i old s))
    else .error .validation

/-- Modelled from the spec: `deleteTransfer` - the inverse of the create
of the stored transfer. -/
def deleteTransfer (uid i : Nat) (s : EntityStore) : Except Err EntityStore :=
  match s.transfers.find? (trKeyMatch uid i) with
  | none => .error .notFound
  | some old => .ok (dropTr uid i old s)

/-- One engine write-path request, tagged with the calling user. -/
inductive Op where
  | createTx (uid : Nat) (t : Txn)
  | editTx (uid i : Nat) (t : Txn)
  | delTx (uid i : Nat)
  | createTr (uid : Nat) (tr : Transfer)
  | editTr (uid i : Nat) (tr : Transfer)
  | delTr (uid i : Nat)
deriving DecidableEq, Repr

/-- The user performing an operation. -/
def actorOf : Op → Nat
  | .createTx uid _ => uid
  | .editTx uid _ _ => uid
  | .delTx uid _ => uid
  | .createTr uid _ => uid
  | .editTr uid _ _ => uid
  | .delTr uid _ => uid

/-- Dispatch one request to the engine. -/
def execOp : Op → EntityStore → Except Err EntityStore
  | .createTx uid t, s => createTransaction uid t s
  | .editTx uid i t, s => updateTransaction uid i t s
  | .delTx uid i, s => deleteTransaction uid i s
  | .createTr uid tr, s => createTransfer uid tr s
  | .editTr uid i tr, s => updateTransfer uid i tr s
  | .delTr uid i, s => deleteTransfer uid i s

/-- A rejected request leaves the store untouched (all-or-nothing). -/
def applyOp (s : EntityStore) (op : Op) : EntityStore :=
  match execOp op s with
  | .ok s' => s'
  | .error _ => s

/-- Run a finite sequence of requests. -/
def run (s : EntityStore) (ops : List Op) : EntityStore := ops.foldl applyOp s

/-- The central invariant: every payment method's balance equals its last
explicitly-set absolute balance plus the signed amounts of every currently
existing transaction and transfer referencing it. -/
def balanceOk (s : EntityStore) : Prop :=
  ∀ m ∈ s.methods,
    m.balance = m.base + txnSum m.user_id m.id s.txns + trSum m.user_id m.id s.transfers

/-- Modelled from the spec: `reconcile(userId)` - recompute every balance
of the user from scratch by replaying all existing transactions and
transfers against the method's last explicit absolute balance. -/
def reconcile (uid : Nat) (s : EntityStore) : EntityStore :=
  { s with
    methods := s.methods.map (fun m =>
      if m.user_id = uid then
        { m with balance := m.base + txnSum m.user_id m.id s.txns
            + trSum m.user_id m.id s.transfers }
      else m) }

/-- Balance snapshot of the caller's payment method `i`. -/
def balanceOf (uid i : Nat) (s : EntityStore) : Option Int :=
  (s.methods.find? (fun m => m.id == i && m.user_id == uid)).map (fun m => m.balance)

/-- Modelled from the spec: the budget `percent` value; `unbounded` is the
documented sentinel for `amount = 0` with money spent (the spec leaves the
exact display convention open but requires a single sentinel, never a
division fault). -/
inductive Percent where
  | val (q : ℚ)
  | unbounded
deriving DecidableEq, Repr

/-- Modelled from the spec: `percent = spent / amount * 100` when
`amount > 0`, else `0` when nothing was spent, else the sentinel; the
division is only reached when `amount > 0`. -/
def percentOf (amount spent : Int) : Percent :=
  if 0 < amount then .val ((spent : ℚ) / (amount : ℚ) * 100)
  else if spent = 0 then .val 0
  else .unbounded

/-- Modelled from the spec: one BudgetAggregator output row. -/
structure BudgetRow where
  subcategory_id : Nat
  amount : Int
  spent : Int
  remaining : Int
  percent : Percent
deriving DecidableEq, Repr

/-- Modelled from the spec: sum of expense-transaction amounts of user
`uid` for subcategory `sid` within month `(y, mo)`. -/
def spentFor (uid sid y mo : Nat) (ts : List Txn) : Int :=
  sumBy (fun t =>
    if t.user_id = uid ∧ t.kind = TxnKind.expense ∧ t.subcategory_id = sid
        ∧ t.year = y ∧ t.month = mo then t.amount else 0) ts

/-- Modelled from the spec: the budget amount for `(uid, y, mo, sid)`,
`0` when no budget row exists for that month. -/
def budgetAmountFor (uid sid y mo : Nat) (bs : List Budget) : Int :=
  match bs.find? (fun b =>
      b.user_id == uid && b.subcategory_id == sid && b.year == y && b.month == mo) with
  | some b => b.amount
  | none => 0

/-- Modelled from the spec: BudgetAggregator - one row per existing expense
subcategory of the user (amount `0` when no budget row exists),
`remaining = amount - spent`, `percent` by `percentOf`. -/
def budgetRows (uid y mo : Nat) (s : EntityStore) : List BudgetRow :=
  (s.subcats.filter (fun sc => sc.user_id == uid && sc.kind == TxnKind.expense)).map
    (fun sc =>
      let amount := budgetAmountFor uid sc.id y mo s.budgets
      let spent := spentFor uid sc.id y mo s.txns
      { subcategory_id := sc.id, amount := amount, spent := spent,
        remaining := amount - spent, percent := percentOf amount spent })

/-- Read path: the caller's transactions (implicitly filtered by identity). -/
def listTransactions (uid : Nat) (s : EntityStore) : List Txn :=
  s.txns.filter (fun t => t.user_id == uid)

/-- Read path: the caller's payment methods. -/
def listPaymentMethods (uid : Nat) (s : EntityStore) : List PaymentMethod :=
  s.methods.filter (fun m => m.user_id == uid)

/-- Read path: the caller's transfers. -/
def listTransfers (uid : Nat) (s : EntityStore) : List Transfer :=
  s.transfers.filter (fun tr => tr.user_id == uid)

/-- Projection of the store onto the entities NOT owned by `uid`; an
operation by `uid` must leave it untouched. -/
structure OtherView where
  methods : List PaymentMethod
  txns : List Txn
  transfers : List Transfer
deriving DecidableEq, Repr

/-- Everything in the store owned by users other than `uid`. -/
def otherUsersView (uid : Nat) (s : EntityStore) : OtherView :=
  ⟨s.methods.filter (fun m => m.user_id != uid),
   s.txns.filter (fun t => t.user_id != uid),
   s.transfers.filter (fun tr => tr.user_id != uid)⟩

/-- Apply a list of edits to the same transaction id through the write
path; a rejected edit leaves the store untouched. -/
def runEditsTx (uid i : Nat) (edits : List Txn) (s : EntityStore) : EntityStore :=
  edits.foldl (fun st f => applyOp st (.editTx uid i f)) s

/-- Sample store: user 1 with "Cash" (id 1, base 200000, balance 80000
after two 60000 expenses) and "Bank" (id 2, balance 50000); user 2 with
"Vault" (id 7, balance 500); one expense subcategory "Makan" (id 5) with a
200000 budget for 2025-01 and the two 60000 expense transactions in that
month. -/
def sampleStore : EntityStore :=
  { methods := [⟨1, 1, "Cash", 200000, 80000⟩, ⟨2, 1, "Bank", 50000, 50000⟩,
                ⟨7, 2, "Vault", 500, 500⟩]
    txns := [⟨21, 1, .expense, 2025, 1, 3, 4, 5, 1, 60000, "makan siang"⟩,
             ⟨22, 1, .expense, 2025, 1, 9, 4, 5, 1, 60000, "makan malam"⟩]
    transfers := []
    subcats := [⟨5, 1, .expense, 4, "Makan"⟩]
    budgets := [⟨1, 2025, 1, 5, 200000⟩] }

/-- Fresh single-method store used by round-trip witnesses: "Cash" with
balance 100000 and no events. -/
def cashStore : EntityStore :=
  { methods := [⟨1, 1, "Cash", 100000, 100000⟩, ⟨2, 1, "Bank", 50000, 50000⟩]
    txns := []
    transfers := []
    subcats := []
    budgets := [] }

/-- Sample expense of 30000 against Cash. -/
def txnExpenseA : Txn := ⟨10, 1, .expense, 2025, 1, 5, 4, 5, 1, 30000, "belanja"⟩

/-- The same transaction with the amount edited to 50000. -/
def txnExpenseB : Txn := ⟨10, 1, .expense, 2025, 1, 5, 4, 5, 1, 50000, "belanja"⟩

/-- Sample transfer of 20000 from Cash to Bank. -/
def transferAB : Transfer := ⟨30, 1, 2025, 1, 10, 1, 2, 20000, "pindah uang"⟩

instance (s : EntityStore) : Decidable (balanceOk s) := by
  unfold balanceOk; infer_instance

/-- Sample write sequence touching every operation kind. -/
def opsSample : List Op :=
  [.createTx 1 txnExpenseA, .editTx 1 10 txnExpenseB, .createTr 1 transferAB,
   .delTr 1 30, .delTx 1 10]

/-- C6: the dashboard budget indicator is a total three-tier function of the
percent value: above 90 it is "Hampir habis" (near limit), between 70 and 90
inclusive it is "Hati-hati" (caution), and below 70 it is "Aman" (safe); the
boundaries 70 and 90 fall in the caution tier. -/
theorem budgetTone_three_tier (p : ℚ) :
    (90 < p → (budgetTone p).label = "Hampir habis")
    ∧ (70 ≤ p → p ≤ 90 → (budgetTone p).label = "Hati-hati")
    ∧ (p < 70 → (budgetTone p).label = "Aman") := by
  unfold budgetTone
  refine ⟨fun h => ?_, fun h1 h2 => ?_, fun h => ?_⟩ <;>
    split_ifs <;> first | rfl | linarith

theorem budgetTone_three_tier_witness :
    (budgetTone 100).label = "Hampir habis"
    ∧ (budgetTone 90).label = "Hati-hati"
    ∧ (budgetTone 70).label = "Hati-hati"
    ∧ (budgetTone 60).label = "Aman" :=
  ⟨(budgetTone_three_tier 100).1 (by norm_num),
   (budgetTone_three_tier 90).2.1 (by norm_num) (by norm_num),
   (budgetTone_three_tier 70).2.1 (by norm_num) (by norm_num),
   (budgetTone_three_tier 60).2.2 (by norm_num)⟩

/-- C10: every falsy argument (`undefined`, `null`, `0`, `""`, `NaN`,
`false`) renders exactly like `formatRp(0)` because the source coerces with
`Number(amount || 0)`, and every numeric argument is formatted by the id-ID
IDR formatter; the function is total (never throws). -/
theorem formatRp_falsy_eq_zero :
    (∀ v : JsVal, falsy v = true → formatRp v = formatRp (.num 0))
    ∧ (∀ n : Int, formatRp (.num n) = formatIDR (some n)) := by
  constructor
  · intro v h
    cases v <;> simp_all [formatRp, jsOr, falsy]
  · intro n
    by_cases h : n = 0 <;> simp [formatRp, jsOr, falsy, jsNumberOf, h]

theorem formatRp_falsy_eq_zero_witness :
    falsy .undef = true ∧ formatRp .undef = formatRp (.num 0) :=
  ⟨by decide, formatRp_falsy_eq_zero.1 .undef (by decide)⟩

/-- C9: `filenameFromDisposition` always returns (it is total): the fallback
for a missing or empty disposition, for a disposition matching neither
regex, and when percent-decoding the `filename*` capture throws; and when
both a `filename*` form and a plain `filename` form are present, the
percent-decoded `filename*` capture is returned in preference. -/
theorem filenameFromDisposition_spec :
    (∀ fb : String, filenameFromDisposition none fb = fb
        ∧ filenameFromDisposition (some "") fb = fb)
    ∧ (∀ d fb, scanFnStar d.toList = none → scanFn d.toList = none →
        filenameFromDisposition (some d) fb = fb)
    ∧ (∀ d fb cap, scanFnStar d.toList = some cap →
        decodeURIComponent cap = none →
        filenameFromDisposition (some d) fb = fb)
    ∧ (∀ d fb cap dec capPlain, scanFnStar d.toList = some cap →
        decodeURIComponent cap = some dec → scanFn d.toList = some capPlain →
        filenameFromDisposition (some d) fb = String.mk dec) := by
  refine ⟨fun fb => ⟨rfl, rfl⟩, ?_, ?_, ?_⟩
  · intro d fb h1 h2
    have h1' : scanFnStar d.data = none := h1
    have h2' : scanFn d.data = none := h2
    by_cases he : d = "" <;> simp [filenameFromDisposition, he, h1', h2']
  · intro d fb cap h1 h2
    have h1' : scanFnStar d.data = some cap := h1
    by_cases he : d = "" <;> simp [filenameFromDisposition, he, h1', h2]
  · intro d fb cap dec capPlain h1 h2 h3
    have h1' : scanFnStar d.data = some cap := h1
    by_cases he : d = ""
    · subst he
      simp [scanFnStar] at h1'
    · simp [filenameFromDisposition, he, h1', h2]

theorem filenameFromDisposition_spec_witness :
    filenameFromDisposition none "f.pdf" = "f.pdf"
    ∧ (scanFnStar ("attachment").toList = none ∧ scanFn ("attachment").toList = none
        ∧ filenameFromDisposition (some "attachment") "f.pdf" = "f.pdf")
    ∧ (scanFnStar ("filename*=UTF-8''%ZZ").toList = some ['%', 'Z', 'Z']
        ∧ decodeURIComponent ['%', 'Z', 'Z'] = none
        ∧ filenameFromDisposition (some "filename*=UTF-8''%ZZ") "f.pdf" = "f.pdf")
    ∧ (scanFnStar ("filename*=UTF-8''a%20b; filename=plain.txt").toList
          = some ['a', '%', '2', '0', 'b']
        ∧ decodeURIComponent ['a', '%', '2', '0', 'b'] = some ['a', ' ', 'b']
        ∧ scanFn ("filename*=UTF-8''a%20b; filename=plain.txt").toList
          = some ['p', 'l', 'a', 'i', 'n', '.', 't', 'x', 't']
        ∧ filenameFromDisposition (some "filename*=UTF-8''a%20b; filename=plain.txt") "f.pdf"
          = String.mk ['a', ' ', 'b']) :=
  ⟨(filenameFromDisposition_spec.1 "f.pdf").1,
   ⟨by decide, by decide,
    filenameFromDisposition_spec.2.1 "attachment" "f.pdf" (by decide) (by decide)⟩,
   ⟨by decide, by decide,
    filenameFromDisposition_spec.2.2.1 "filename*=UTF-8''%ZZ" "f.pdf" ['%', 'Z', 'Z']
      (by decide) (by decide)⟩,
   ⟨by decide, by decide, by decide,
    filenameFromDisposition_spec.2.2.2 "filename*=UTF-8''a%20b; filename=plain.txt" "f.pdf"
      ['a', '%', '2', '0', 'b'] ['a', ' ', 'b'] ['p', 'l', 'a', 'i', 'n', '.', 't', 'x', 't']
      (by decide) (by decide) (by decide)⟩⟩

lemma txnKeyMatch_true {uid i : Nat} {t : Txn} (h : txnKeyMatch uid i t = true) :
    t.id = i ∧ t.user_id = uid := by
  simpa [txnKeyMatch] using h

lemma trKeyMatch_true {uid i : Nat} {tr : Transfer} (h : trKeyMatch uid i tr = true) :
    tr.id = i ∧ tr.user_id = uid := by
  simpa [trKeyMatch] using h

lemma applyDelta_applyDelta (u i : Nat) (d e : Int) (ms : List PaymentMethod) :
    applyDelta u i d (applyDelta u i e ms) = applyDelta u i (e + d) ms := by
  induction ms with
  | nil => rfl
  | cons m ms ih =>
    simp only [applyDelta, List.map_cons] at *
    refine congrArg₂ _ ?_ ih
    obtain ⟨mid, muid, mname, mbase, mbal⟩ := m
    by_cases hc : muid = u ∧ mid = i <;> simp [hc, add_assoc]

lemma applyDelta_zero (u i : Nat) (ms : List PaymentMethod) :
    applyDelta u i 0 ms = ms := by
  induction ms with
  | nil => rfl
  | cons m ms ih =>
    simp only [applyDelta, List.map_cons] at *
    refine congrArg₂ _ ?_ ih
    obtain ⟨mid, muid, mname, mbase, mbal⟩ := m
    by_cases hc : muid = u ∧ mid = i <;> simp [hc]

lemma removeFirst_cons_of_pos {α} {p : α → Bool} {x : α} (l : List α) (h : p x = true) :
    removeFirst p (x :: l) = l := by
  simp [removeFirst, h]

lemma sumBy_removeFirst {α} (f : α → Int) (p : α → Bool) (l : List α) (a : α)
    (h : l.find? p = some a) :
    sumBy f (removeFirst p l) = sumBy f l - f a := by
  induction l with
  | nil => simp [List.find?] at h
  | cons x xs ih =>
    by_cases hx : p x
    · rw [List.find?_cons_of_pos _ hx] at h
      obtain rfl : x = a := by injection h
      rw [removeFirst_cons_of_pos _ hx]
      simp [sumBy]
    · rw [List.find?_cons_of_neg _ (by simpa using hx)] at h
      simp only [removeFirst, if_neg hx, sumBy, ih h]
      ring

lemma find?_map_pres {α} (g : α → α) (q : α → Bool) (l : List α)
    (hq : ∀ x, q (g x) = q x) :
    (l.map g).find? q = (l.find? q).map g := by
  induction l with
  | nil => rfl
  | cons x xs ih =>
    by_cases hx : q x
    · rw [List.map_cons, List.find?_cons_of_pos _ ((hq x).trans hx),
        List.find?_cons_of_pos _ hx, Option.map_some']
    · rw [List.map_cons, List.find?_cons_of_neg _ (by simp [hq x, hx]),
        List.find?_cons_of_neg _ (by simpa using hx), ih]

lemma filter_map_invariant {α} (g : α → α) (q : α → Bool) (l : List α)
    (hpres : ∀ x, q (g x) = q x) (hid : ∀ x, q x = true → g x = x) :
    (l.map g).filter q = l.filter q := by
  induction l with
  | nil => rfl
  | cons x xs ih =>
    cases hx : q x with
    | true => simp [List.filter_cons, hpres x, hx, hid x hx, ih]
    | false => simp [List.filter_cons, hpres x, hx, ih]

lemma filter_removeFirst {α} (p q : α → Bool) (l : List α)
    (h : ∀ x, p x = true → q x = false) :
    (removeFirst p l).filter q = l.filter q := by
  induction l with
  | nil => rfl
  | cons x xs ih =>
    by_cases hx : p x
    · simp [removeFirst, hx, List.filter_cons, h x hx]
    · cases hq : q x <;> simp [removeFirst, hx, List.filter_cons, hq, ih]

lemma applyDelta_user_pres (u i : Nat) (d : Int) (ms : List PaymentMethod) :
    (applyDelta u i d ms).filter (fun m => m.user_id != u)
      = ms.filter (fun m => m.user_id != u) := by
  refine filter_map_invariant _ _ _ (fun m => ?_) (fun m hm => ?_)
  · obtain ⟨mid, muid, mname, mbase, mbal⟩ := m
    by_cases hc : muid = u ∧ mid = i <;> simp [hc]
  · obtain ⟨mid, muid, mname, mbase, mbal⟩ := m
    by_cases hc : muid = u ∧ mid = i <;> simp_all

lemma methodOwned_applyDelta (v j u i : Nat) (d : Int) (ms : List PaymentMethod) :
    methodOwned v j (applyDelta u i d ms) = methodOwned v j ms := by
  induction ms with
  | nil => rfl
  | cons m ms ih =>
    simp only [applyDelta, methodOwned, List.map_cons, List.any_cons] at *
    refine congrArg₂ _ ?_ ih
    obtain ⟨mid, muid, mname, mbase, mbal⟩ := m
    by_cases hc : muid = u ∧ mid = i <;> simp [hc]

lemma txnSum_cons (u i : Nat) (t : Txn) (ts : List Txn) :
    txnSum u i (t :: ts) = txnContrib u i t + txnSum u i ts := rfl

lemma trSum_cons (u i : Nat) (tr : Transfer) (trs : List Transfer) :
    trSum u i (tr :: trs) = trContrib u i tr + trSum u i trs := rfl

lemma applyDelta_shape (u i : Nat) (d : Int) (ms : List PaymentMethod) (m' : PaymentMethod)
    (hm' : m' ∈ applyDelta u i d ms) :
    ∃ m ∈ ms, m'.id = m.id ∧ m'.user_id = m.user_id ∧ m'.base = m.base
      ∧ m'.balance = m.balance + (if m.user_id = u ∧ m.id = i then d else 0) := by
  rcases List.mem_map.1 hm' with ⟨m, hm, rfl⟩
  refine ⟨m, hm, ?_⟩
  by_cases hc : m.user_id = u ∧ m.id = i <;> simp [hc]

lemma balanceOk_consTxn (t : Txn) (s : EntityStore) (h : balanceOk s) :
    balanceOk (consTxn t s) := by
  obtain ⟨ms, ts, trs, scs, bs⟩ := s
  intro m' hm'
  simp only [consTxn] at hm'
  obtain ⟨m, hm, hid, huser, hbase, hbal⟩ := applyDelta_shape _ _ _ _ _ hm'
  have hb := h m hm
  show m'.balance = m'.base + txnSum m'.user_id m'.id (t :: ts) + trSum m'.user_id m'.id trs
  rw [txnSum_cons, hbal, hbase, hid, huser, hb]
  simp only [txnContrib]
  by_cases hc : m.user_id = t.user_id ∧ m.id = t.payment_method_id <;> simp [hc] <;> ring

lemma balanceOk_dropTxn (uid i : Nat) (old : Txn) (s : EntityStore)
    (hfind : s.txns.find? (txnKeyMatch uid i) = some old) (h : balanceOk s) :
    balanceOk (dropTxn uid i old s) := by
  obtain ⟨ms, ts, trs, scs, bs⟩ := s
  have hu : old.user_id = uid := (txnKeyMatch_true (List.find?_some hfind)).2
  intro m' hm'
  simp only [dropTxn] at hm'
  obtain ⟨m, hm, hid, huser, hbase, hbal⟩ := applyDelta_shape _ _ _ _ _ hm'
  have hb := h m hm
  have hsum : txnSum m.user_id m.id (removeFirst (txnKeyMatch uid i) ts)
      = txnSum m.user_id m.id ts - txnContrib m.user_id m.id old :=
    sumBy_removeFirst _ _ _ _ hfind
  show m'.balance = m'.base
      + txnSum m'.user_id m'.id (removeFirst (txnKeyMatch uid i) ts)
      + trSum m'.user_id m'.id trs
  rw [hbal, hbase, hid, huser, hsum, hb]
  simp only [txnContrib, hu]
  by_cases hc : m.user_id = uid ∧ m.id = old.payment_method_id <;> simp [hc] <;> ring

lemma balanceOk_consTr (tr : Transfer) (s : EntityStore) (h : balanceOk s) :
    balanceOk (consTr tr s) := by
  obtain ⟨ms, ts, trs, scs, bs⟩ := s
  intro m' hm'
  simp only [consTr] at hm'
  obtain ⟨m₁, hm₁, hid₁, huser₁, hbase₁, hbal₁⟩ := applyDelta_shape _ _ _ _ _ hm'
  obtain ⟨m, hm, hid₂, huser₂, hbase₂, hbal₂⟩ := applyDelta_shape _ _ _ _ _ hm₁
  have hb := h m hm
  show m'.balance = m'.base + txnSum m'.user_id m'.id ts + trSum m'.user_id m'.id (tr :: trs)
  rw [trSum_cons, hbal₁, hbal₂, hbase₁, hbase₂, hid₁, hid₂, huser₁, huser₂, hb]
  simp only [trContrib]
  by_cases hf : m.user_id = tr.user_id ∧ m.id = tr.from_payment_method_id <;>
    by_cases ht : m.user_id = tr.user_id ∧ m.id = tr.to_payment_method_id <;>
    simp [hf, ht] <;> split_ifs <;> ring

lemma balanceOk_dropTr (uid i : Nat) (old : Transfer) (s : EntityStore)
    (hfind : s.transfers.find? (trKeyMatch uid i) = some old) (h : balanceOk s) :
    balanceOk (dropTr uid i old s) := by
  obtain ⟨ms, ts, trs, scs, bs⟩ := s
  have hu : old.user_id = uid := (trKeyMatch_true (List.find?_some hfind)).2
  intro m' hm'
  simp only [dropTr] at hm'
  obtain ⟨m₁, hm₁, hid₁, huser₁, hbase₁, hbal₁⟩ := applyDelta_shape _ _ _ _ _ hm'
  obtain ⟨m, hm, hid₂, huser₂, hbase₂, hbal₂⟩ := applyDelta_shape _ _ _ _ _ hm₁
  have hb := h m hm
  have hsum : trSum m.user_id m.id (removeFirst (trKeyMatch uid i) trs)
      = trSum m.user_id m.id trs - trContrib m.user_id m.id old :=
    sumBy_removeFirst _ _ _ _ hfind
  show m'.balance = m'.base + txnSum m'.user_id m'.id ts
      + trSum m'.user_id m'.id (removeFirst (trKeyMatch uid i) trs)
  rw [hbal₁, hbal₂, hbase₁, hbase₂, hid₁, hid₂, huser₁, huser₂, hsum, hb]
  simp only [trContrib, hu]
  by_cases hf : m.user_id = uid ∧ m.id = old.from_payment_method_id <;>
    by_cases ht : m.user_id = uid ∧ m.id = old.to_payment_method_id <;>
    simp [hf, ht] <;> split_ifs <;> ring

lemma applyOp_balanceOk (s : EntityStore) (op : Op) (h : balanceOk s) :
    balanceOk (applyOp s op) := by
  cases op with
  | createTx uid t =>
    by_cases c1 : t.amount ≤ 0
    · have he : applyOp s (.createTx uid t) = s := by
        simp [applyOp, execOp, createTransaction, c1]
      rw [he]; exact h
    · cases c2 : methodOwned uid t.payment_method_id s.methods with
      | false =>
        have he : applyOp s (.createTx uid t) = s := by
          simp [applyOp, execOp, createTransaction, c1, c2]
        rw [he]; exact h
      | true =>
        have he : applyOp s (.createTx uid t) = consTxn { t with user_id := uid } s := by
          simp [applyOp, execOp, createTransaction, c1, c2]
        rw [he]; exact balanceOk_consTxn _ _ h
  | editTx uid i t =>
    cases hfind : s.txns.find? (txnKeyMatch uid i) with
    | none =>
      have he : applyOp s (.editTx uid i t) = s := by
        simp [applyOp, execOp, updateTransaction, hfind]
      rw [he]; exact h
    | some old =>
      by_cases c1 : t.amount ≤ 0
      · have he : applyOp s (.editTx uid i t) = s := by
          simp [applyOp, execOp, updateTransaction, hfind, c1]
        rw [he]; exact h
      · cases c2 : methodOwned uid t.payment_method_id s.methods with
        | false =>
          have he : applyOp s (.editTx uid i t) = s := by
            simp [applyOp, execOp, updateTransaction, hfind, c1, c2]
          rw [he]; exact h
        | true =>
          have he : applyOp s (.editTx uid i t)
              = consTxn { t with id := i, user_id := uid } (dropTxn uid i old s) := by
            simp [applyOp, execOp, updateTransaction, hfind, c1, c2]
          rw [he]; exact balanceOk_consTxn _ _ (balanceOk_dropTxn uid i old s hfind h)
  | delTx uid i =>
    cases hfind : s.txns.find? (txnKeyMatch uid i) with
    | none =>
      have he : applyOp s (.delTx uid i) = s := by
        simp [applyOp, execOp, deleteTransaction, hfind]
      rw [he]; exact h
    | some old =>
      have he : applyOp s (.delTx uid i) = dropTxn uid i old s := by
        simp [applyOp, execOp, deleteTransaction, hfind]
      rw [he]; exact balanceOk_dropTxn uid i old s hfind h
  | createTr uid tr =>
    by_cases c1 : tr.amount ≤ 0
    · have he : applyOp s (.createTr uid tr) = s := by
        simp [applyOp, execOp, createTransfer, c1]
      rw [he]; exact h
    · cases c2 : tr.from_payment_method_id == tr.to_payment_method_id with
      | true =>
        have he : applyOp s (.createTr uid tr) = s := by
          simp [applyOp, execOp, createTransfer, c1, c2]
        rw [he]; exact h
      | false =>
        cases c3 : methodOwned uid tr.from_payment_method_id s.methods
            && methodOwned uid tr.to_payment_method_id s.methods with
        | false =>
          have he : applyOp s (.createTr uid tr) = s := by
            simp [applyOp, execOp, createTransfer, c1, c2, c3]
          rw [he]; exact h
        | true =>
          have he : applyOp s (.createTr uid tr) = consTr { tr with user_id := uid } s := by
            simp [applyOp, execOp, createTransfer, c1, c2, c3]
          rw [he]; exact balanceOk_consTr _ _ h
  | editTr uid i tr =>
    cases hfind : s.transfers.find? (trKeyMatch uid i) with
    | none =>
      have he : applyOp s (.editTr uid i tr) = s := by
        simp [applyOp, execOp, updateTransfer, hfind]
      rw [he]; exact h
    | some old =>
      by_cases c1 : tr.amount ≤ 0
      · have he : applyOp s (.editTr uid i tr) = s := by
          simp [applyOp, execOp, updateTransfer, hfind, c1]
        rw [he]; exact h
      · cases c2 : tr.from_payment_method_id == tr.to_payment_method_id with
        | true =>
          have he : applyOp s (.editTr uid i tr) = s := by
            simp [applyOp, execOp, updateTransfer, hfind, c1, c2]
          rw [he]; exact h
        | false =>
          cases c3 : methodOwned uid tr.from_payment_method_id s.methods
              && methodOwned uid tr.to_payment_method_id s.methods with
          | false =>
            have he : applyOp s (.editTr uid i tr) = s := by
              simp [applyOp, execOp, updateTransfer, hfind, c1, c2, c3]
            rw [he]; exact h
          | true =>
            have he : applyOp s (.editTr uid i tr)
                = consTr { tr with id := i, user_id := uid } (dropTr uid i old s) := by
              simp [applyOp, execOp, updateTransfer, hfind, c1, c2, c3]
            rw [he]; exact balanceOk_consTr _ _ (balanceOk_dropTr uid i old s hfind h)
  | delTr uid i =>
    cases hfind : s.transfers.find? (trKeyMatch uid i) with
    | none =>
      have he : applyOp s (.delTr uid i) = s := by
        simp [applyOp, execOp, deleteTransfer, hfind]
      rw [he]; exact h
    | some old =>
      have he : applyOp s (.delTr uid i) = dropTr uid i old s := by
        simp [applyOp, execOp, deleteTransfer, hfind]
      rw [he]; exact balanceOk_dropTr uid i old s hfind h

lemma run_balanceOk (s : EntityStore) (ops : List Op) (h : balanceOk s) :
    balanceOk (run s ops) := by
  induction ops generalizing s with
  | nil => exact h
  | cons op ops ih => exact ih _ (applyOp_balanceOk s op h)

lemma map_eq_self_of {α} (f : α → α) (l : List α) (h : ∀ x ∈ l, f x = x) :
    l.map f = l := by
  induction l with
  | nil => rfl
  | cons x xs ih =>
    rw [List.map_cons, h x (List.mem_cons_self x xs),
      ih (fun y hy => h y (List.mem_cons_of_mem _ hy))]

lemma reconcile_eq_self (uid : Nat) (s : EntityStore) (h : balanceOk s) :
    reconcile uid s = s := by
  obtain ⟨ms, ts, trs, scs, bs⟩ := s
  simp only [reconcile]
  congr 1
  apply map_eq_self_of
  intro m hm
  have hb := h m hm
  by_cases hc : m.user_id = uid
  · rw [if_pos hc, ← hb]
  · rw [if_neg hc]

/-- C1: after every finite sequence of creates, edits and deletes of
transactions and transfers through the engine's write path, every payment
method's balance equals its last explicitly-set absolute balance plus the
signed amounts of all currently existing transactions and transfers
referencing it, and `reconcile`'s from-scratch replay is the identity on
the resulting store, i.e. the incremental BalanceProjector result equals
the replay, for all sequences including the empty one. -/
theorem balance_invariant_run (s : EntityStore) (ops : List Op) (h : balanceOk s) :
    balanceOk (run s ops) ∧ ∀ uid, reconcile uid (run s ops) = run s ops :=
  ⟨run_balanceOk s ops h, fun uid => reconcile_eq_self uid _ (run_balanceOk s ops h)⟩

theorem balance_invariant_run_witness :
    balanceOk sampleStore
    ∧ balanceOk (run sampleStore opsSample)
    ∧ reconcile 1 (run sampleStore opsSample) = run sampleStore opsSample :=
  ⟨by decide,
   (balance_invariant_run sampleStore opsSample (by decide)).1,
   (balance_invariant_run sampleStore opsSample (by decide)).2 1⟩

/-- C2: editing an event is exactly reversing the old event and creating
the new one: for transactions and transfers alike, `updateTransaction`
(resp. `updateTransfer`) returns the very same result - same final
balances, same stored records, same errors - as `deleteTransaction`
(resp. `deleteTransfer`) of the old record followed by `createTransaction`
(resp. `createTransfer`) of the new fields, even when the payment method,
amount, or type changed. -/
theorem applyEdit_eq_delete_then_create :
    (∀ (uid i : Nat) (t : Txn) (s : EntityStore),
        updateTransaction uid i t s
          = (deleteTransaction uid i s).bind
              (fun s' => createTransaction uid { t with id := i } s'))
    ∧ (∀ (uid i : Nat) (tr : Transfer) (s : EntityStore),
        updateTransfer uid i tr s
          = (deleteTransfer uid i s).bind
              (fun s' => createTransfer uid { tr with id := i } s')) := by
  constructor
  · intro uid i t s
    cases hfind : s.txns.find? (txnKeyMatch uid i) with
    | none => simp [updateTransaction, deleteTransaction, hfind, Except.bind]
    | some old =>
      simp only [updateTransaction, deleteTransaction, hfind, Except.bind]
      simp only [createTransaction, dropTxn]
      rw [methodOwned_applyDelta]
  · intro uid i tr s
    cases hfind : s.transfers.find? (trKeyMatch uid i) with
    | none => simp [updateTransfer, deleteTransfer, hfind, Except.bind]
    | some old =>
      simp only [updateTransfer, deleteTransfer, hfind, Except.bind]
      simp only [createTransfer, dropTr]
      rw [methodOwned_applyDelta, methodOwned_applyDelta,
        methodOwned_applyDelta, methodOwned_applyDelta]

lemma find?_applyDelta (v j u i : Nat) (d : Int) (ms : List PaymentMethod) :
    (applyDelta u i d ms).find? (fun m => m.id == j && m.user_id == v)
      = (ms.find? (fun m => m.id == j && m.user_id == v)).map
          (fun m => if m.user_id = u ∧ m.id = i
            then { m with balance := m.balance + d } else m) := by
  unfold applyDelta
  apply find?_map_pres
  intro x
  by_cases hc : x.user_id = u ∧ x.id = i <;> simp [hc]

/-- C3: a successful `createTransfer(A→B, amt)` decreases A's balance by
exactly `amt` and increases B's by exactly `amt` in the single resulting
store (both sides applied in one atomic step, never one without the
other), and deleting that transfer returns the whole store - in
particular both balances - exactly to its pre-create value. -/
theorem createTransfer_atomic_and_delete_restores (uid : Nat) (tr : Transfer)
    (s s' : EntityStore) (h : createTransfer uid tr s = .ok s') :
    balanceOf uid tr.from_payment_method_id s'
        = (balanceOf uid tr.from_payment_method_id s).map (fun b => b - tr.amount)
    ∧ balanceOf uid tr.to_payment_method_id s'
        = (balanceOf uid tr.to_payment_method_id s).map (fun b => b + tr.amount)
    ∧ deleteTransfer uid tr.id s' = .ok s := by
  obtain ⟨ms, ts, trs, scs, bs⟩ := s
  unfold createTransfer at h
  split_ifs at h with c1 c2 c3
  any_goals simp only [Except.ok.injEq, Except.error.injEq, reduceCtorEq, false_and] at h
  subst h
  have hne : tr.from_payment_method_id ≠ tr.to_payment_method_id := by
    simpa using c2
  refine ⟨?_, ?_, ?_⟩
  · simp only [balanceOf, consTr]
    rw [find?_applyDelta, find?_applyDelta, Option.map_map, Option.map_map]
    cases hfq : ms.find? (fun m =>
        m.id == tr.from_payment_method_id && m.user_id == uid) with
    | none => simp [hfq]
    | some m =>
      have hm : m.id = tr.from_payment_method_id ∧ m.user_id = uid := by
        simpa using List.find?_some hfq
      simp [hfq, Function.comp, hm.1, hm.2, hne, sub_eq_add_neg]
  · simp only [balanceOf, consTr]
    rw [find?_applyDelta, find?_applyDelta, Option.map_map, Option.map_map]
    cases hfq : ms.find? (fun m =>
        m.id == tr.to_payment_method_id && m.user_id == uid) with
    | none => simp [hfq]
    | some m =>
      have hm : m.id = tr.to_payment_method_id ∧ m.user_id = uid := by
        simpa using List.find?_some hfq
      simp [hfq, Function.comp, hm.1, hm.2, Ne.symm hne]
  · have hkey : trKeyMatch uid tr.id { tr with user_id := uid } = true := by
      simp [trKeyMatch]
    simp only [deleteTransfer, consTr]
    rw [List.find?_cons_of_pos _ hkey]
    simp [dropTr, consTr, applyDelta_applyDelta, applyDelta_zero,
      removeFirst_cons_of_pos _ hkey]

theorem createTransfer_atomic_and_delete_restores_witness :
    createTransfer 1 transferAB cashStore
        = .ok (applyOp cashStore (.createTr 1 transferAB))
    ∧ balanceOf 1 1 cashStore = some 100000
    ∧ balanceOf 1 2 cashStore = some 50000
    ∧ balanceOf 1 1 (applyOp cashStore (.createTr 1 transferAB)) = some 80000
    ∧ balanceOf 1 2 (applyOp cashStore (.createTr 1 transferAB)) = some 70000
    ∧ deleteTransfer 1 30 (applyOp cashStore (.createTr 1 transferAB)) = .ok cashStore :=
  ⟨rfl, by decide, by decide, by decide, by decide,
   (createTransfer_atomic_and_delete_restores 1 transferAB cashStore _ rfl).2.2⟩

lemma roundtrip_aux (uid tid : Nat) (ms : List PaymentMethod) (ts : List Txn)
    (trs : List Transfer) (scs : List Subcategory) (bs : List Budget)
    (edits : List Txn) :
    ∀ cur : Txn, cur.id = tid → cur.user_id = uid →
      deleteTransaction uid tid
        (runEditsTx uid tid edits
          ⟨applyDelta uid cur.payment_method_id (txnDelta cur) ms, cur :: ts, trs, scs, bs⟩)
        = .ok ⟨ms, ts, trs, scs, bs⟩ := by
  induction edits with
  | nil =>
    intro cur hid huser
    have hkey : txnKeyMatch uid tid cur = true := by simp [txnKeyMatch, hid, huser]
    simp only [runEditsTx, List.foldl_nil, deleteTransaction]
    rw [List.find?_cons_of_pos _ hkey]
    simp [dropTxn, applyDelta_applyDelta, applyDelta_zero,
      removeFirst_cons_of_pos _ hkey]
  | cons f rest ih =>
    intro cur hid huser
    have hkey : txnKeyMatch uid tid cur = true := by simp [txnKeyMatch, hid, huser]
    have hfind : List.find? (txnKeyMatch uid tid) (cur :: ts) = some cur :=
      List.find?_cons_of_pos _ hkey
    have hdrop : dropTxn uid tid cur
        ⟨applyDelta uid cur.payment_method_id (txnDelta cur) ms, cur :: ts, trs, scs, bs⟩
        = ⟨ms, ts, trs, scs, bs⟩ := by
      simp [dropTxn, applyDelta_applyDelta, applyDelta_zero,
        removeFirst_cons_of_pos _ hkey]
    by_cases c1 : f.amount ≤ 0
    · have he : applyOp
          ⟨applyDelta uid cur.payment_method_id (txnDelta cur) ms, cur :: ts, trs, scs, bs⟩
          (.editTx uid tid f)
          = ⟨applyDelta uid cur.payment_method_id (txnDelta cur) ms,
              cur :: ts, trs, scs, bs⟩ := by
        simp [applyOp, execOp, updateTransaction, hfind, c1]
      simp only [runEditsTx, List.foldl_cons]
      rw [he]
      exact ih cur hid huser
    · cases c2 : methodOwned uid f.payment_method_id
          (applyDelta uid cur.payment_method_id (txnDelta cur) ms) with
      | false =>
        have he : applyOp
            ⟨applyDelta uid cur.payment_method_id (txnDelta cur) ms, cur :: ts, trs, scs, bs⟩
            (.editTx uid tid f)
            = ⟨applyDelta uid cur.payment_method_id (txnDelta cur) ms,
                cur :: ts, trs, scs, bs⟩ := by
          simp [applyOp, execOp, updateTransaction, hfind, c1, c2]
        simp only [runEditsTx, List.foldl_cons]
        rw [he]
        exact ih cur hid huser
      | true =>
        have he : applyOp
            ⟨applyDelta uid cur.payment_method_id (txnDelta cur) ms, cur :: ts, trs, scs, bs⟩
            (.editTx uid tid f)
            = consTxn { f with id := tid, user_id := uid }
                (dropTxn uid tid cur
                  ⟨applyDelta uid cur.payment_method_id (txnDelta cur) ms,
                    cur :: ts, trs, scs, bs⟩) := by
          simp [applyOp, execOp, updateTransaction, hfind, c1, c2]
        simp only [runEditsTx, List.foldl_cons]
        rw [he, hdrop]
        exact ih { f with id := tid, user_id := uid } rfl rfl

/-- C4: delete is the exact inverse of create on the store: creating a
transaction against a fresh store, editing it any number of times (each
edit through the write path, rejected edits included), then deleting it
returns the whole store - in particular the originating payment method's
balance - exactly to its pre-create value, with exact equality and no
drift. -/
theorem create_edits_delete_roundtrip (uid : Nat) (t : Txn) (s s₁ : EntityStore)
    (h : createTransaction uid t s = .ok s₁) (edits : List Txn) :
    deleteTransaction uid t.id (runEditsTx uid t.id edits s₁) = .ok s := by
  obtain ⟨ms, ts, trs, scs, bs⟩ := s
  unfold createTransaction at h
  split_ifs at h with c1 c2
  any_goals simp only [Except.ok.injEq, Except.error.injEq, reduceCtorEq, false_and] at h
  subst h
  exact roundtrip_aux uid t.id ms ts trs scs bs edits { t with user_id := uid } rfl rfl

theorem create_edits_delete_roundtrip_witness :
    createTransaction 1 txnExpenseA cashStore
        = .ok (applyOp cashStore (.createTx 1 txnExpenseA))
    ∧ balanceOf 1 1 (applyOp cashStore (.createTx 1 txnExpenseA)) = some 70000
    ∧ balanceOf 1 1 (runEditsTx 1 10 [txnExpenseB]
        (applyOp cashStore (.createTx 1 txnExpenseA))) = some 50000
    ∧ deleteTransaction 1 10 (runEditsTx 1 10 [txnExpenseB]
        (applyOp cashStore (.createTx 1 txnExpenseA))) = .ok cashStore :=
  ⟨rfl, by decide, by decide,
   create_edits_delete_roundtrip 1 txnExpenseA cashStore _ rfl [txnExpenseB]⟩

/-- C5: `applyCreate` (through `createTransaction`/`createTransfer`)
fails with `ValidationError` whenever the amount is nonpositive, a
referenced payment method does not exist or belongs to another user, or a
transfer's two sides are the same method; in every such case the request
is rejected before any mutation, so the store - balances and stored
entities alike - is unchanged. -/
theorem validation_rejected_before_mutation :
    (∀ (uid : Nat) (t : Txn) (s : EntityStore),
        t.amount ≤ 0 ∨ methodOwned uid t.payment_method_id s.methods = false →
        createTransaction uid t s = .error .validation
          ∧ applyOp s (.createTx uid t) = s)
    ∧ (∀ (uid : Nat) (tr : Transfer) (s : EntityStore),
        tr.amount ≤ 0 ∨ tr.from_payment_method_id = tr.to_payment_method_id
          ∨ methodOwned uid tr.from_payment_method_id s.methods = false
          ∨ methodOwned uid tr.to_payment_method_id s.methods = false →
        createTransfer uid tr s = .error .validation
          ∧ applyOp s (.createTr uid tr) = s) := by
  constructor
  · intro uid t s hc
    have he : createTransaction uid t s = .error .validation := by
      by_cases c1 : t.amount ≤ 0
      · simp [createTransaction, c1]
      · rcases hc with hc | hc
        · exact absurd hc c1
        · simp [createTransaction, c1, hc]
    exact ⟨he, by simp [applyOp, execOp, he]⟩
  · intro uid tr s hc
    have he : createTransfer uid tr s = .error .validation := by
      by_cases c1 : tr.amount ≤ 0
      · simp [createTransfer, c1]
      · rcases hc with hc | hc | hc | hc
        · exact absurd hc c1
        · simp [createTransfer, c1, hc]
        · cases c2 : tr.from_payment_method_id == tr.to_payment_method_id <;>
            simp [createTransfer, c1, c2, hc]
        · cases c2 : tr.from_payment_method_id == tr.to_payment_method_id <;>
            simp [createTransfer, c1, c2, hc]
    exact ⟨he, by simp [applyOp, execOp, he]⟩

theorem validation_rejected_before_mutation_witness :
    (createTransaction 1 { txnExpenseA with amount := -5 } sampleStore
        = .error .validation
      ∧ applyOp sampleStore (.createTx 1 { txnExpenseA with amount := -5 }) = sampleStore)
    ∧ (createTransfer 1 { transferAB with to_payment_method_id := 1 } sampleStore
        = .error .validation
      ∧ applyOp sampleStore
          (.createTr 1 { transferAB with to_payment_method_id := 1 }) = sampleStore) :=
  ⟨validation_rejected_before_mutation.1 1 _ sampleStore (Or.inl (by decide)),
   validation_rejected_before_mutation.2 1 _ sampleStore (Or.inr (Or.inl (by decide)))⟩

lemma percentOf_spec (a sp : Int) :
    (0 < a → percentOf a sp = .val ((sp : ℚ) / (a : ℚ) * 100))
    ∧ (a = 0 → sp = 0 → percentOf a sp = .val 0)
    ∧ (a = 0 → 0 < sp → percentOf a sp = .unbounded) := by
  refine ⟨fun h => ?_, fun h1 h2 => ?_, fun h1 h2 => ?_⟩ <;>
    simp only [percentOf] <;> split_ifs <;> first | rfl | omega

/-- C7: every BudgetAggregator row computes its percent as a total
function of `(amount, spent)`: `spent / amount * 100` when `amount > 0`,
the documented zero value `0` when `amount = 0` and `spent = 0`, and the
single `unbounded` sentinel when `amount = 0` and `spent > 0` - the
division is only reached when `amount > 0`, so no division error can
occur. -/
theorem budgetRows_percent_convention (uid y mo : Nat) (s : EntityStore)
    (r : BudgetRow) (hr : r ∈ budgetRows uid y mo s) :
    (0 < r.amount → r.percent = .val ((r.spent : ℚ) / (r.amount : ℚ) * 100))
    ∧ (r.amount = 0 → r.spent = 0 → r.percent = .val 0)
    ∧ (r.amount = 0 → 0 < r.spent → r.percent = .unbounded) := by
  simp only [budgetRows, List.mem_map] at hr
  obtain ⟨sc, hsc, rfl⟩ := hr
  exact percentOf_spec _ _

theorem budgetRows_percent_convention_witness :
    budgetRows 1 2025 1 sampleStore
        = [⟨5, 200000, 120000, 80000, percentOf 200000 120000⟩]
    ∧ (0 : Int) < 200000
    ∧ percentOf 200000 120000 = .val ((120000 : ℚ) / (200000 : ℚ) * 100) :=
  ⟨rfl, by decide,
   (budgetRows_percent_convention 1 2025 1 sampleStore
      ⟨5, 200000, 120000, 80000, percentOf 200000 120000⟩
      (by rw [show budgetRows 1 2025 1 sampleStore
            = [⟨5, 200000, 120000, 80000, percentOf 200000 120000⟩] from rfl]
          exact List.mem_singleton.mpr rfl)).1 (by decide)⟩

lemma otherView_consTxn (uid : Nat) (t : Txn) (s : EntityStore) (hu : t.user_id = uid) :
    otherUsersView uid (consTxn t s) = otherUsersView uid s := by
  obtain ⟨ms, ts, trs, scs, bs⟩ := s
  simp only [otherUsersView, consTxn, OtherView.mk.injEq, and_true, true_and]
  refine ⟨?_, ?_⟩
  · rw [hu]
    exact applyDelta_user_pres _ _ _ _
  · simp [List.filter_cons, hu]

lemma otherView_dropTxn (uid i : Nat) (old : Txn) (s : EntityStore) :
    otherUsersView uid (dropTxn uid i old s) = otherUsersView uid s := by
  obtain ⟨ms, ts, trs, scs, bs⟩ := s
  simp only [otherUsersView, dropTxn, OtherView.mk.injEq, and_true, true_and]
  refine ⟨applyDelta_user_pres _ _ _ _, ?_⟩
  refine filter_removeFirst _ _ _ ?_
  intro x hx
  have hux := (txnKeyMatch_true hx).2
  simp [hux]

lemma otherView_consTr (uid : Nat) (tr : Transfer) (s : EntityStore)
    (hu : tr.user_id = uid) :
    otherUsersView uid (consTr tr s) = otherUsersView uid s := by
  obtain ⟨ms, ts, trs, scs, bs⟩ := s
  simp only [otherUsersView, consTr, OtherView.mk.injEq, and_true, true_and]
  refine ⟨?_, ?_⟩
  · rw [hu, applyDelta_user_pres, applyDelta_user_pres]
  · simp [List.filter_cons, hu]

lemma otherView_dropTr (uid i : Nat) (old : Transfer) (s : EntityStore) :
    otherUsersView uid (dropTr uid i old s) = otherUsersView uid s := by
  obtain ⟨ms, ts, trs, scs, bs⟩ := s
  simp only [otherUsersView, dropTr, OtherView.mk.injEq, and_true, true_and]
  refine ⟨?_, ?_⟩
  · rw [applyDelta_user_pres, applyDelta_user_pres]
  · refine filter_removeFirst _ _ _ ?_
    intro x hx
    have hux := (trKeyMatch_true hx).2
    simp [hux]

/-- C8: every read returns only entities owned by the caller; every write
leaves everything owned by other users untouched; and a delete or update
naming an id that is absent or owned by another user fails with the same
`NotFoundError` in both cases, so the caller cannot distinguish another
user's entity from a nonexistent one. -/
theorem cross_user_isolation :
    (∀ (uid : Nat) (s : EntityStore),
        (∀ t ∈ listTransactions uid s, t.user_id = uid)
        ∧ (∀ m ∈ listPaymentMethods uid s, m.user_id = uid)
        ∧ (∀ tr ∈ listTransfers uid s, tr.user_id = uid))
    ∧ (∀ (s : EntityStore) (op : Op),
        otherUsersView (actorOf op) (applyOp s op) = otherUsersView (actorOf op) s)
    ∧ (∀ (uid i : Nat) (s : EntityStore),
        (∀ t ∈ s.txns, t.id = i → t.user_id ≠ uid) →
        deleteTransaction uid i s = .error .notFound
          ∧ ∀ t, updateTransaction uid i t s = .error .notFound)
    ∧ (∀ (uid i : Nat) (s : EntityStore),
        (∀ tr ∈ s.transfers, tr.id = i → tr.user_id ≠ uid) →
        deleteTransfer uid i s = .error .notFound
          ∧ ∀ tr, updateTransfer uid i tr s = .error .notFound) := by
  refine ⟨fun uid s => ⟨fun t ht => ?_, fun m hm => ?_, fun tr htr => ?_⟩, ?_, ?_, ?_⟩
  · simpa using (List.mem_filter.1 ht).2
  · simpa using (List.mem_filter.1 hm).2
  · simpa using (List.mem_filter.1 htr).2
  · intro s op
    cases op with
    | createTx uid t =>
      simp only [actorOf]
      by_cases c1 : t.amount ≤ 0
      · rw [show applyOp s (.createTx uid t) = s by simp [applyOp, execOp, createTransaction, c1]]
      · cases c2 : methodOwned uid t.payment_method_id s.methods with
        | false =>
          rw [show applyOp s (.createTx uid t) = s by
            simp [applyOp, execOp, createTransaction, c1, c2]]
        | true =>
          rw [show applyOp s (.createTx uid t) = consTxn { t with user_id := uid } s by
            simp [applyOp, execOp, createTransaction, c1, c2]]
          exact otherView_consTxn uid _ s rfl
    | editTx uid i t =>
      simp only [actorOf]
      cases hfind : s.txns.find? (txnKeyMatch uid i) with
      | none =>
        rw [show applyOp s (.editTx uid i t) = s by
          simp [applyOp, execOp, updateTransaction, hfind]]
      | some old =>
        by_cases c1 : t.amount ≤ 0
        · rw [show applyOp s (.editTx uid i t) = s by
            simp [applyOp, execOp, updateTransaction, hfind, c1]]
        · cases c2 : methodOwned uid t.payment_method_id s.methods with
          | false =>
            rw [show applyOp s (.editTx uid i t) = s by
              simp [applyOp, execOp, updateTransaction, hfind, c1, c2]]
          | true =>
            rw [show applyOp s (.editTx uid i t)
                = consTxn { t with id := i, user_id := uid } (dropTxn uid i old s) by
              simp [applyOp, execOp, updateTransaction, hfind, c1, c2]]
            exact (otherView_consTxn uid _ _ rfl).trans (otherView_dropTxn uid i old s)
    | delTx uid i =>
      simp only [actorOf]
      cases hfind : s.txns.find? (txnKeyMatch uid i) with
      | none =>
        rw [show applyOp s (.delTx uid i) = s by
          simp [applyOp, execOp, deleteTransaction, hfind]]
      | some old =>
        rw [show applyOp s (.delTx uid i) = dropTxn uid i old s by
          simp [applyOp, execOp, deleteTransaction, hfind]]
        exact otherView_dropTxn uid i old s
    | createTr uid tr =>
      simp only [actorOf]
      by_cases c1 : tr.amount ≤ 0
      · rw [show applyOp s (.createTr uid tr) = s by
          simp [applyOp, execOp, createTransfer, c1]]
      · cases c2 : tr.from_payment_method_id == tr.to_payment_method_id with
        | true =>
          rw [show applyOp s (.createTr uid tr) = s by
            simp [applyOp, execOp, createTransfer, c1, c2]]
        | false =>
          cases c3 : methodOwned uid tr.from_payment_method_id s.methods
              && methodOwned uid tr.to_payment_method_id s.methods with
          | false =>
            rw [show applyOp s (.createTr uid tr) = s by
              simp [applyOp, execOp, createTransfer, c1, c2, c3]]
          | true =>
            rw [show applyOp s (.createTr uid tr) = consTr { tr with user_id := uid } s by
              simp [applyOp, execOp, createTransfer, c1, c2, c3]]
            exact otherView_consTr uid _ s rfl
    | editTr uid i tr =>
      simp only [actorOf]
      cases hfind : s.transfers.find? (trKeyMatch uid i) with
      | none =>
        rw [show applyOp s (.editTr uid i tr) = s by
          simp [applyOp, execOp, updateTransfer, hfind]]
      | some old =>
        by_cases c1 : tr.amount ≤ 0
        · rw [show applyOp s (.editTr uid i tr) = s by
            simp [applyOp, execOp, updateTransfer, hfind, c1]]
        · cases c2 : tr.from_payment_method_id == tr.to_payment_method_id with
          | true =>
            rw [show applyOp s (.editTr uid i tr) = s by
              simp [applyOp, execOp, updateTransfer, hfind, c1, c2]]
          | false =>
            cases c3 : methodOwned uid tr.from_payment_method_id s.methods
                && methodOwned uid tr.to_payment_method_id s.methods with
            | false =>
              rw [show applyOp s (.editTr uid i tr) = s by
                simp [applyOp, execOp, updateTransfer, hfind, c1, c2, c3]]
            | true =>
              rw [show applyOp s (.editTr uid i tr)
                  = consTr { tr with id := i, user_id := uid } (dropTr uid i old s) by
                simp [applyOp, execOp, updateTransfer, hfind, c1, c2, c3]]
              exact (otherView_consTr uid _ _ rfl).trans (otherView_dropTr uid i old s)
    | delTr uid i =>
      simp only [actorOf]
      cases hfind : s.transfers.find? (trKeyMatch uid i) with
      | none =>
        rw [show applyOp s (.delTr uid i) = s by
          simp [applyOp, execOp, deleteTransfer, hfind]]
      | some old =>
        rw [show applyOp s (.delTr uid i) = dropTr uid i old s by
          simp [applyOp, execOp, deleteTransfer, hfind]]
        exact otherView_dropTr uid i old s
  · intro uid i s hno
    have hfind : s.txns.find? (txnKeyMatch uid i) = none := by
      rw [List.find?_eq_none]
      intro t ht
      simp only [txnKeyMatch, Bool.and_eq_true, beq_iff_eq]
      rintro ⟨h1, h2⟩
      exact hno t ht h1 h2
    exact ⟨by simp [deleteTransaction, hfind],
      fun t => by simp [updateTransaction, hfind]⟩
  · intro uid i s hno
    have hfind : s.transfers.find? (trKeyMatch uid i) = none := by
      rw [List.find?_eq_none]
      intro tr htr
      simp only [trKeyMatch, Bool.and_eq_true, beq_iff_eq]
      rintro ⟨h1, h2⟩
      exact hno tr htr h1 h2
    exact ⟨by simp [deleteTransfer, hfind],
      fun tr => by simp [updateTransfer, hfind]⟩

theorem cross_user_isolation_witness :
    deleteTransaction 2 21 sampleStore = .error .notFound
    ∧ updateTransaction 2 21 txnExpenseA sampleStore = .error .notFound
    ∧ otherUsersView 2 (applyOp sampleStore (.delTx 2 21)) = otherUsersView 2 sampleStore :=
  ⟨(cross_user_isolation.2.2.1 2 21 sampleStore (by decide)).1,
   (cross_user_isolation.2.2.1 2 21 sampleStore (by decide)).2 txnExpenseA,
   cross_user_isolation.2.1 sampleStore (.delTx 2 21)⟩
